import Mathlib

/- Verification of the proposal-report pipeline implemented in src/app.py.

The script fetches proposal records from a remote API, normalizes them into a
tabular shape (one dictionary comprehension per record, lines 116-127), applies
four cascading categorical filters (lines 154-164), derives a per-branch
executed / not-executed summary (lines 194-213), formats the monetary total
for the screen in Brazilian locale style (lines 172-182) and renders a PDF
whose total line uses Python's default thousands formatting (lines 71-74).

Embedding conventions:
* A table is a `List Row`, in API order; pandas DataFrames are ordered row
  sequences here, and every pandas operation used by the script is embedded by
  its list semantics.
* Categorical cells (`Status`, `Profissional`, `Unidade`, `Paciente ID`) are
  `Option String`: `none` is a null / NaN cell.  `dropna` is `filterMap`,
  `isin` over a selection list is membership of the non-null value, null never
  matches (pandas `isin` is false on NaN for NaN-free selection lists).
* Monetary values are integer cents (`Nat`): the script never does arithmetic
  beyond summation, value is non-negative by convention (spec section 3), and
  the two-decimal rendering of Python's `:,.2f` on the totals at issue is
  exactly the cents rendering.
* A raw API record field is `Option (Option String)`: the outer layer is key
  presence (`p["k"]` raises KeyError when absent), the inner layer is a JSON
  null.
* Python `sorted` on strings is lexicographic code-point comparison, embedded
  by `listaCharLe` below and Mathlib's `List.insertionSort`.
-/

/-! String order: Python's `sorted` compares strings lexicographically by
code point. -/

/-- Strict code-point comparison of two characters. -/
def charLt (a b : Char) : Bool := a.toNat < b.toNat

/-- Lexicographic code-point comparison of two character lists, the order
Python `sorted` uses on strings. -/
def listaCharLe : List Char → List Char → Bool
  | [], _ => true
  | _ :: _, [] => false
  | a :: as, b :: bs =>
    if charLt a b then true
    else if charLt b a then false
    else listaCharLe as bs

/-- String comparison used to embed Python's `sorted`. -/
def strLe (a b : String) : Bool := listaCharLe a.data b.data

/-- `strLe` as a relation, for Mathlib's sorting machinery. -/
def strLeProp (a b : String) : Prop := strLe a b = true

instance : DecidableRel strLeProp := fun _ _ => instDecidableEqBool _ _

/-- `sorted(...)` on a list of strings. -/
def ordena (l : List String) : List String := List.insertionSort strLeProp l

/-! Data model (spec section 3, src/app.py lines 116-127). -/

/-- The nested facility object of a raw proposal record: `p["unidade"]`.
The outer `Option` on the field is key presence, the inner one a JSON null. -/
structure UnidadeRaw where
  nome_fantasia : Option (Option String)
deriving DecidableEq

/-- A raw proposal object as delivered under the response's `content` key.
Each field's outer `Option` is key presence (`none` = missing key, so
`p["..."]` raises), the inner `Option` is a JSON null value.  `value` is in
integer cents. -/
structure RawProposta where
  proposal_id : Option (Option String)
  proposal_date : Option (Option String)
  PacienteID : Option (Option String)
  status : Option (Option String)
  value : Option (Option Nat)
  proposer_name : Option (Option String)
  unidade : Option UnidadeRaw
deriving DecidableEq

/-- A normalized row of the base table (columns of the dictionary
comprehension at lines 116-127): `Proposta ID`, `Data`, `Paciente ID`,
`Status`, `Valor Total (R$)` in cents, `Profissional`, `Unidade`.
`none` cells are pandas NaN. -/
structure Row where
  propostaID : Option String
  data : Option String
  pacienteID : Option String
  status : Option String
  valorTotal : Option Nat
  profissional : Option String
  unidade : Option String
deriving DecidableEq

/-! Record Normalizer (lines 116-127). -/

/-- One entry of the comprehension: every key access must succeed, in the
source's access order, including the nested `p["unidade"]["nome_fantasia"]`;
a missing key (outer `none`) aborts with `none` (KeyError). -/
def normalizeRecord (p : RawProposta) : Option Row := do
  let pid ← p.proposal_id
  let pdata ← p.proposal_date
  let pac ← p.PacienteID
  let pst ← p.status
  let pval ← p.value
  let pprof ← p.proposer_name
  let pu ← p.unidade
  let pnf ← pu.nome_fantasia
  pure { propostaID := pid, data := pdata, pacienteID := pac, status := pst,
         valorTotal := pval, profissional := pprof, unidade := pnf }

/-- Whether a raw record carries all seven required keys, the nested
facility-name key included. -/
def temTodasChaves (p : RawProposta) : Bool :=
  p.proposal_id.isSome && p.proposal_date.isSome && p.PacienteID.isSome &&
  p.status.isSome && p.value.isSome && p.proposer_name.isSome &&
  (match p.unidade with
   | some u => u.nome_fantasia.isSome
   | none => false)

/-- The whole comprehension `[{...} for p in propostas]`: a KeyError on any
record aborts the whole batch (Python evaluates the comprehension before the
assignment, so nothing is produced). -/
def normalizar : List RawProposta → Option (List Row)
  | [] => some []
  | p :: ps =>
    match normalizeRecord p, normalizar ps with
    | some r, some rs => some (r :: rs)
    | _, _ => none

/-! The fetch-button flow (lines 103-127): previous `st.session_state.df_base`
is only overwritten when the comprehension completes. -/

/-- Outcome of pressing the fetch button. -/
inductive ResultadoBusca
  | tabela : List Row → ResultadoBusca
  | avisoVazio : ResultadoBusca
  | erroChave : ResultadoBusca
deriving DecidableEq

/-- Lines 110-127: `propostas = resultado.get("content", [])`; an absent or
empty array shows the informational warning and stops (session state kept);
a KeyError inside the comprehension propagates before the assignment to
`st.session_state.df_base`, so the previous table is kept; otherwise the new
table replaces the old one wholesale.  Returns the new `df_base` and the
outcome. -/
def buscar (dfBasePrev : Option (List Row)) (conteudo : Option (List RawProposta)) :
    Option (List Row) × ResultadoBusca :=
  let propostas := conteudo.getD []
  if propostas.isEmpty then
    (dfBasePrev, ResultadoBusca.avisoVazio)
  else
    match normalizar propostas with
    | some rows => (some rows, ResultadoBusca.tabela rows)
    | none => (dfBasePrev, ResultadoBusca.erroChave)

/-! Filter Engine (lines 137-164). -/

/-- `df[col].isin(sel)` on one cell: a null cell never belongs to a selection
list (selections are drawn from the null-free option lists). -/
def pertence (v : Option String) (sel : List String) : Bool :=
  match v with
  | some s => sel.contains s
  | none => false

/-- The cascading filter application of lines 154-164: each `if filtro_x:`
skips its step when the selection is empty. -/
def filtrar (base : List Row) (fS fP fU fPa : List String) : List Row :=
  let df1 := if fS.isEmpty then base else base.filter fun r => pertence r.status fS
  let df2 := if fP.isEmpty then df1 else df1.filter fun r => pertence r.profissional fP
  let df3 := if fU.isEmpty then df2 else df2.filter fun r => pertence r.unidade fU
  if fPa.isEmpty then df3 else df3.filter fun r => pertence r.pacienteID fPa

/-- The specified per-dimension condition: an empty selection imposes no
restriction, a non-empty one is a membership test. -/
def respeitaDim (sel : List String) (v : Option String) : Bool :=
  sel.isEmpty || pertence v sel

/-- Option list of one dimension (lines 137-151):
`sorted(df[col].dropna().unique())` on the base table. -/
def opcoes (col : Row → Option String) (df : List Row) : List String :=
  ordena (df.filterMap col).dedup

/-! Branch Summary Aggregator (lines 194-213). -/

/-- The `Tipo` column of line 197-199: binary classification of a status
cell by exact string equality (a NaN status is not `"Executada"` either). -/
def tipo (s : Option String) : String :=
  if s = some "Executada" then "Executada" else "Não executada"

/-- Rows of one branch and one `Tipo` in the filtered table: the value
`row.get(t, 0)` reads off the `groupby(["Unidade", "Tipo"]).size()` /
`unstack(fill_value=0)` result, i.e. the group size, with 0 both when
`fill_value` supplied it and when the whole column is absent. -/
def contaTipo (df : List Row) (b : String) (t : String) : Nat :=
  (df.filter fun r => decide (r.unidade = some b) && decide (tipo r.status = t)).length

/-- The summary consumed by the iteration at lines 207-213: one entry per
distinct non-null branch (pandas `groupby` sorts its keys and drops NaN
keys), carrying `(filial, executadas, nao_executadas)`. -/
def resumo (df : List Row) : List (String × Nat × Nat) :=
  (ordena (df.filterMap Row.unidade).dedup).map fun b =>
    (b, contaTipo df b "Executada", contaTipo df b "Não executada")

/-! Currency formatting (lines 71-74 and 172-182). -/

/-- Exactly two fractional digits, for an argument below 100. -/
def pad2 (n : Nat) : List Char := [Nat.digitChar (n / 10), Nat.digitChar (n % 10)]

/-- Thousands grouping on a reversed digit list: a comma after every third
digit, as Python's `,` format flag inserts. -/
def agrupaRevAux : Nat → List Char → List Char
  | _, [] => []
  | k, c :: cs =>
    if k = 2 ∧ cs ≠ [] then c :: ',' :: agrupaRevAux 0 cs
    else c :: agrupaRevAux (k + 1) cs

/-- The integer part of Python's `f"{v:,.2f}"`: decimal digits grouped in
threes with commas. -/
def agrupaMilhares (n : Nat) : List Char :=
  (agrupaRevAux 0 (Nat.toDigits 10 n).reverse).reverse

/-- Python's `f"{v:,.2f}"` on a non-negative total of `cents` cents: comma
thousands separators, a dot, two fractional digits. -/
def pyFormat2 (cents : Nat) : List Char :=
  agrupaMilhares (cents / 100) ++ '.' :: pad2 (cents % 100)

/-- `f"{valor_total:,.2f}"` as a string. -/
def pyFormat2String (cents : Nat) : String := ⟨pyFormat2 cents⟩

/-- `.replace(",", "X")` of line 177: each replaced pattern is a single
character, so the replacement is a character map. -/
def trocaVirgulaX (l : List Char) : List Char :=
  l.map fun c => if c = ',' then 'X' else c

/-- `.replace(".", ",")` of line 178. -/
def trocaPontoVirgula (l : List Char) : List Char :=
  l.map fun c => if c = '.' then ',' else c

/-- `.replace("X", ".")` of line 179. -/
def trocaXPonto (l : List Char) : List Char :=
  l.map fun c => if c = 'X' then '.' else c

/-- The Brazilian-locale rendering of lines 175-180, as a character list. -/
def formatoBR (cents : Nat) : List Char :=
  trocaXPonto (trocaPontoVirgula (trocaVirgulaX (pyFormat2 cents)))

/-- The on-screen formatting `valor_formatado` of lines 175-180. -/
def valor_formatado (cents : Nat) : String := ⟨formatoBR cents⟩

/-- `df["Valor Total (R$)"].sum()` in cents: pandas summation skips NaN
cells. -/
def somaValorCents (df : List Row) : Nat :=
  df.foldl (fun acc r => acc + r.valorTotal.getD 0) 0

/-- The total-value paragraph of the PDF (lines 71-74):
`f"Valor total: R$ {df['Valor Total (R$)'].sum():,.2f}"`. -/
def linhaValorTotalPDF (df : List Row) : String :=
  "Valor total: R$ " ++ pyFormat2String (somaValorCents df)

/-! Order facts for the embedded string comparison. -/

theorem charLt_asymm {a b : Char} (h : charLt a b = true) : charLt b a = false := by
  simp only [charLt, decide_eq_true_eq] at h
  simp only [charLt, decide_eq_false_iff_not]
  omega

theorem listaCharLe_total (as bs : List Char) :
    listaCharLe as bs = true ∨ listaCharLe bs as = true := by
  induction as generalizing bs with
  | nil => left; rfl
  | cons a as ih =>
    cases bs with
    | nil => right; rfl
    | cons b bs =>
      by_cases h1 : charLt a b = true
      · left; simp [listaCharLe, h1]
      · by_cases h2 : charLt b a = true
        · right; simp [listaCharLe, h1, h2]
        · rcases ih bs with h | h
          · left; simp [listaCharLe, h1, h2, h]
          · right; simp [listaCharLe, h1, h2, h]

theorem listaCharLe_trans : ∀ {as bs cs : List Char},
    listaCharLe as bs = true → listaCharLe bs cs = true → listaCharLe as cs = true
  | [], _, _, _, _ => rfl
  | _ :: _, [], _, h, _ => by simp [listaCharLe] at h
  | _ :: _, _ :: _, [], _, h => by simp [listaCharLe] at h
  | a :: as, b :: bs, c :: cs, h1, h2 => by
    simp only [listaCharLe] at h1 h2 ⊢
    by_cases hab : charLt a b = true
    · by_cases hbc : charLt b c = true
      · have : charLt a c = true := by
          simp only [charLt, decide_eq_true_eq] at hab hbc ⊢; omega
        simp [this]
      · by_cases hcb : charLt c b = true
        · simp [hbc, hcb] at h2
        · have : charLt a c = true := by
            simp only [charLt, decide_eq_true_eq, decide_eq_false_iff_not] at hab hbc hcb ⊢
            omega
          simp [this]
    · by_cases hba : charLt b a = true
      · simp [hab, hba] at h1
      · by_cases hbc : charLt b c = true
        · have : charLt a c = true := by
            simp only [charLt, decide_eq_true_eq, decide_eq_false_iff_not] at hab hba hbc ⊢
            omega
          simp [this]
        · by_cases hcb : charLt c b = true
          · simp [hbc, hcb] at h2
          · have hac : charLt a c = false := by
              simp only [charLt, decide_eq_true_eq, decide_eq_false_iff_not] at hab hba hbc hcb ⊢
              omega
            have hca : charLt c a = false := by
              simp only [charLt, decide_eq_true_eq, decide_eq_false_iff_not] at hab hba hbc hcb ⊢
              omega
            simp only [hab, hba, if_false, Bool.if_true_left] at h1
            simp only [hbc, hcb, if_false, Bool.if_true_left] at h2
            have := @listaCharLe_trans as bs cs
              (by simpa using h1) (by simpa using h2)
            simp [hac, hca, this]

instance : IsTotal String strLeProp :=
  ⟨fun a b => listaCharLe_total a.data b.data⟩

instance : IsTrans String strLeProp :=
  ⟨fun _ _ _ h1 h2 => listaCharLe_trans h1 h2⟩

/-! Filter Engine lemmas. -/

theorem filtro_filtro {α : Type} (p q : α → Bool) (l : List α) :
    (l.filter p).filter q = l.filter fun a => p a && q a := by
  induction l with
  | nil => rfl
  | cons a l ih =>
    by_cases hp : p a <;> by_cases hq : q a <;>
      simp [List.filter_cons, hp, hq, ih]

theorem passo_filtro (sel : List String) (f : Row → Option String) (df : List Row) :
    (if sel.isEmpty then df else df.filter fun r => pertence (f r) sel) =
      df.filter fun r => respeitaDim sel (f r) := by
  cases sel with
  | nil => simp [respeitaDim]
  | cons a l => simp [respeitaDim]

/-- The four-step cascade equals a single conjunctive filter over the base
table. -/
theorem filtrar_eq_filter (base : List Row) (fS fP fU fPa : List String) :
    filtrar base fS fP fU fPa = base.filter fun r =>
      ((respeitaDim fS r.status && respeitaDim fP r.profissional) &&
        respeitaDim fU r.unidade) && respeitaDim fPa r.pacienteID := by
  show (if fPa.isEmpty then _ else _) = _
  rw [passo_filtro fS (fun r => r.status) base,
    passo_filtro fP (fun r => r.profissional) _,
    passo_filtro fU (fun r => r.unidade) _,
    passo_filtro fPa (fun r => r.pacienteID) _,
    filtro_filtro, filtro_filtro, filtro_filtro]
  simp only [Bool.and_assoc]

/-! Aggregator lemmas. -/

theorem tipo_executada_iff (s : Option String) :
    tipo s = "Executada" ↔ s = some "Executada" := by
  by_cases h : s = some "Executada"
  · simp [tipo, h]
  · simp only [tipo, if_neg h]
    constructor
    · intro hh; exact absurd hh (by decide)
    · intro hh; exact absurd hh h

theorem tipo_dois_valores (s : Option String) :
    tipo s = "Executada" ∨ tipo s = "Não executada" := by
  by_cases h : s = some "Executada" <;> simp [tipo, h]

theorem conta_split (df : List Row) (b : String) :
    contaTipo df b "Executada" + contaTipo df b "Não executada" =
      (df.filter fun r => decide (r.unidade = some b)).length := by
  induction df with
  | nil => rfl
  | cons r df ih =>
    simp only [contaTipo, List.filter_cons] at *
    by_cases hu : r.unidade = some b
    · rcases tipo_dois_valores r.status with ht | ht
      · have ht2 : tipo r.status ≠ "Não executada" := by rw [ht]; decide
        simp [hu, ht, ht2]
        omega
      · have ht2 : tipo r.status ≠ "Executada" := by rw [ht]; decide
        simp [hu, ht, ht2]
        omega
    · simp [hu]
      exact ih

theorem resumo_fst (df : List Row) :
    (resumo df).map Prod.fst = ordena (df.filterMap Row.unidade).dedup := by
  simp [resumo, List.map_map, Function.comp_def]

/-! C1, C2, C6, C7, C10. -/

/-- C1: for every base table and four selection sets, the Filter Engine
returns exactly the subsequence of base rows satisfying every non-empty
selection: logical AND across the four dimensions, membership (logical OR)
within a dimension, and a dimension with an empty selection imposes no
restriction (`respeitaDim` is `sel.isEmpty || pertence v sel`). -/
theorem filtrar_subsequencia_conjuncao (base : List Row) (fS fP fU fPa : List String) :
    filtrar base fS fP fU fPa = base.filter fun r =>
      ((respeitaDim fS r.status && respeitaDim fP r.profissional) &&
        respeitaDim fU r.unidade) && respeitaDim fPa r.pacienteID :=
  filtrar_eq_filter base fS fP fU fPa

/-- C2: every row is classified into exactly one of two categories: the
`Tipo` cell is `"Executada"` precisely when the status cell is exactly the
string `"Executada"`, and is `"Não executada"` for every other status value
(empty strings, unrecognized strings and null cells included); there is no
third bucket. -/
theorem tipo_classificacao_binaria (s : Option String) :
    (tipo s = "Executada" ∨ tipo s = "Não executada") ∧
      (tipo s = "Executada" ↔ s = some "Executada") :=
  ⟨tipo_dois_valores s, tipo_executada_iff s⟩

/-- C6: the option list offered for a dimension is computed from the current
base table (the filters at lines 154-164 run only afterwards, on a copy, so a
selection in one dimension never narrows another dimension's options): it is
sorted, duplicate-free, and contains exactly the non-null values of that
column in the base table. -/
theorem opcoes_ordenadas_distintas_base (df : List Row) (col : Row → Option String) :
    (opcoes col df).Sorted strLeProp ∧ (opcoes col df).Nodup ∧
      ∀ s : String, s ∈ opcoes col df ↔ some s ∈ df.map col := by
  refine ⟨List.sorted_insertionSort strLeProp _,
    ((List.perm_insertionSort strLeProp _).nodup_iff).mpr (List.nodup_dedup _), ?_⟩
  intro s
  simp [opcoes, ordena, List.mem_filterMap]

/-- C7: filtering with all four selection sets empty is the identity: the
base table comes back row for row, in order. -/
theorem filtrar_selecoes_vazias_identidade (base : List Row) :
    filtrar base [] [] [] [] = base := rfl

/-- C10: under a non-empty selection in some dimension, every row whose cell
in that dimension is null is excluded from the filtered table; equivalently,
a row with a null cell survives only while that dimension's selection is
empty.  (Null never appears in an option list: `opcoes` drops nulls, see
`opcoes_ordenadas_distintas_base`.) -/
theorem filtrar_exclui_nulos (base : List Row) (fS fP fU fPa : List String) (r : Row)
    (h : r ∈ filtrar base fS fP fU fPa) :
    (r.status = none → fS = []) ∧ (r.profissional = none → fP = []) ∧
      (r.unidade = none → fU = []) ∧ (r.pacienteID = none → fPa = []) := by
  rw [filtrar_eq_filter, List.mem_filter] at h
  obtain ⟨-, hcond⟩ := h
  simp only [Bool.and_eq_true] at hcond
  obtain ⟨⟨⟨hS, hP⟩, hU⟩, hPa⟩ := hcond
  refine ⟨fun hn => ?_, fun hn => ?_, fun hn => ?_, fun hn => ?_⟩
  · rw [hn] at hS
    simpa [respeitaDim, pertence, List.isEmpty_iff] using hS
  · rw [hn] at hP
    simpa [respeitaDim, pertence, List.isEmpty_iff] using hP
  · rw [hn] at hU
    simpa [respeitaDim, pertence, List.isEmpty_iff] using hU
  · rw [hn] at hPa
    simpa [respeitaDim, pertence, List.isEmpty_iff] using hPa

/-- A row with every categorical cell null, for exercising
`filtrar_exclui_nulos`. -/
def linhaNula : Row :=
  { propostaID := some "9", data := some "02-01-2024", pacienteID := none,
    status := none, valorTotal := some 500, profissional := none, unidade := none }

/-- `filtrar_exclui_nulos` applied at a concrete table: the all-null row is in
the unfiltered result, and every implication then forces the (already empty)
selections to be `[]`. -/
theorem filtrar_exclui_nulos_inst :
    (linhaNula.status = none → ([] : List String) = []) ∧
      (linhaNula.profissional = none → ([] : List String) = []) ∧
      (linhaNula.unidade = none → ([] : List String) = []) ∧
      (linhaNula.pacienteID = none → ([] : List String) = []) :=
  filtrar_exclui_nulos [linhaNula] [] [] [] [] linhaNula (by decide)

/-! C3: the branch summary. -/

/-- C3: for a non-empty filtered table, the summary consumed by the report
loop has exactly one entry per distinct branch present in the table, no
branch twice, and each entry carries both counts: the executed count is the
number of the branch's rows whose status is exactly `"Executada"`, and the
two counts always add up to the branch's row count — so whenever a branch
(or the whole table) has no rows of one category, that count is 0 rather
than the entry lacking it. -/
theorem resumo_uma_entrada_por_filial (df : List Row) (h : df ≠ []) :
    ((resumo df).map Prod.fst).Nodup ∧
      (∀ b : String, b ∈ (resumo df).map Prod.fst ↔ some b ∈ df.map Row.unidade) ∧
      ∀ e ∈ resumo df,
        e.2.1 = (df.filter fun r =>
            decide (r.unidade = some e.1) && decide (r.status = some "Executada")).length ∧
          e.2.1 + e.2.2 = (df.filter fun r => decide (r.unidade = some e.1)).length := by
  refine ⟨?_, ?_, ?_⟩
  · rw [resumo_fst]
    exact ((List.perm_insertionSort strLeProp _).nodup_iff).mpr (List.nodup_dedup _)
  · intro b
    rw [resumo_fst]
    simp [ordena, List.mem_filterMap]
  · intro e he
    simp only [resumo, List.mem_map] at he
    obtain ⟨b, hb, rfl⟩ := he
    refine ⟨?_, conta_split df b⟩
    apply congrArg List.length
    apply List.filter_congr
    intro r hr
    rw [show decide (tipo r.status = "Executada") = decide (r.status = some "Executada") from
      decide_eq_decide.mpr (tipo_executada_iff r.status)]

/-- The three rows of the spec's end-to-end scenario A: branches X, X, Y with
statuses Executada, Pendente, Executada. -/
def dfCenarioA : List Row :=
  [{ propostaID := some "1", data := some "03-01-2024", pacienteID := some "p1",
     status := some "Executada", valorTotal := some 1000, profissional := some "A",
     unidade := some "X" },
   { propostaID := some "2", data := some "03-01-2024", pacienteID := some "p2",
     status := some "Pendente", valorTotal := some 2000, profissional := some "B",
     unidade := some "X" },
   { propostaID := some "3", data := some "04-01-2024", pacienteID := some "p3",
     status := some "Executada", valorTotal := some 3000, profissional := some "A",
     unidade := some "Y" }]

/-- `resumo_uma_entrada_por_filial` at scenario A's table. -/
theorem resumo_uma_entrada_por_filial_inst :
    ((resumo dfCenarioA).map Prod.fst).Nodup ∧
      (∀ b : String, b ∈ (resumo dfCenarioA).map Prod.fst ↔
        some b ∈ dfCenarioA.map Row.unidade) ∧
      ∀ e ∈ resumo dfCenarioA,
        e.2.1 = (dfCenarioA.filter fun r =>
            decide (r.unidade = some e.1) && decide (r.status = some "Executada")).length ∧
          e.2.1 + e.2.2 =
            (dfCenarioA.filter fun r => decide (r.unidade = some e.1)).length :=
  resumo_uma_entrada_por_filial dfCenarioA (by decide)

/-! C8 and C9: the normalization batch contract and the empty-fetch guard. -/

theorem normalizeRecord_isSome (p : RawProposta) :
    (normalizeRecord p).isSome = temTodasChaves p := by
  obtain ⟨f1, f2, f3, f4, f5, f6, f7⟩ := p
  cases f1 <;> cases f2 <;> cases f3 <;> cases f4 <;> cases f5 <;> cases f6 <;>
    rcases f7 with _ | ⟨_ | _⟩ <;> rfl

theorem normalizar_falha {ps : List RawProposta} (h : ∃ p ∈ ps, temTodasChaves p = false) :
    normalizar ps = none := by
  induction ps with
  | nil => simp at h
  | cons q ps ih =>
    obtain ⟨p, hp, hk⟩ := h
    rcases List.mem_cons.mp hp with rfl | hp2
    · have hnone : normalizeRecord p = none := by
        have h2 := normalizeRecord_isSome p
        rw [hk] at h2
        cases hcase : normalizeRecord p with
        | none => rfl
        | some r => rw [hcase] at h2; simp at h2
      show (match normalizeRecord p, normalizar ps with
        | some r, some rs => some (r :: rs)
        | _, _ => none) = none
      rw [hnone]
    · have hrec := ih ⟨p, hp2, hk⟩
      show (match normalizeRecord q, normalizar ps with
        | some r, some rs => some (r :: rs)
        | _, _ => none) = none
      rw [hrec]
      cases normalizeRecord q <;> rfl

theorem normalizar_sucesso {ps : List RawProposta} (h : ∀ p ∈ ps, temTodasChaves p = true) :
    ∃ rows, normalizar ps = some rows ∧ rows.length = ps.length ∧
      List.Forall₂ (fun p r => normalizeRecord p = some r) ps rows := by
  induction ps with
  | nil => exact ⟨[], rfl, rfl, List.Forall₂.nil⟩
  | cons q ps ih =>
    obtain ⟨rows, hrows, hlen, hf⟩ := ih fun p hp => h p (List.mem_cons_of_mem q hp)
    have hq : (normalizeRecord q).isSome = true := by
      rw [normalizeRecord_isSome]
      exact h q (List.mem_cons_self q ps)
    obtain ⟨r, hr⟩ := Option.isSome_iff_exists.mp hq
    refine ⟨r :: rows, ?_, by simp [hlen], List.Forall₂.cons hr hf⟩
    show (match normalizeRecord q, normalizar ps with
      | some r, some rs => some (r :: rs)
      | _, _ => none) = some (r :: rows)
    rw [hr, hrows]

/-- C8: if any record of the batch lacks any of the seven required keys (the
nested facility-name key included), normalization of the whole batch fails
and the previously held base table is kept; if every record has all keys, the
output pairs the inputs one row per record, in order. -/
theorem normalizar_tudo_ou_nada (prev : Option (List Row)) (ps : List RawProposta) :
    ((∃ p ∈ ps, temTodasChaves p = false) →
        normalizar ps = none ∧ (buscar prev (some ps)).1 = prev) ∧
      ((∀ p ∈ ps, temTodasChaves p = true) →
        ∃ rows, normalizar ps = some rows ∧ rows.length = ps.length ∧
          List.Forall₂ (fun p r => normalizeRecord p = some r) ps rows) := by
  refine ⟨fun h => ⟨normalizar_falha h, ?_⟩, normalizar_sucesso⟩
  have hn := normalizar_falha h
  obtain ⟨p, hp, -⟩ := h
  cases ps with
  | nil => simp at hp
  | cons q ps2 => simp [buscar, hn]

/-- A raw record carrying all required keys. -/
def rawCompleta : RawProposta :=
  { proposal_id := some (some "1"), proposal_date := some (some "05-01-2024"),
    PacienteID := some (some "77"), status := some (some "Executada"),
    value := some (some 150000), proposer_name := some (some "Dra Ana"),
    unidade := some { nome_fantasia := some (some "Matriz") } }

/-- A raw record whose `status` key is missing entirely. -/
def rawSemStatus : RawProposta :=
  { proposal_id := some (some "2"), proposal_date := some (some "05-01-2024"),
    PacienteID := some (some "78"), status := none,
    value := some (some 90000), proposer_name := some (some "Dr Beto"),
    unidade := some { nome_fantasia := some (some "Matriz") } }

/-- `normalizar_tudo_ou_nada` at concrete batches: one bad record aborts the
two-record batch and keeps the old (empty) base table, and the all-good batch
normalizes record by record. -/
theorem normalizar_tudo_ou_nada_inst :
    (normalizar [rawCompleta, rawSemStatus] = none ∧
        (buscar (some []) (some [rawCompleta, rawSemStatus])).1 = some []) ∧
      ∃ rows, normalizar [rawCompleta] = some rows ∧
        rows.length = [rawCompleta].length ∧
        List.Forall₂ (fun p r => normalizeRecord p = some r) [rawCompleta] rows :=
  ⟨(normalizar_tudo_ou_nada (some []) [rawCompleta, rawSemStatus]).1
      ⟨rawSemStatus, by decide, by decide⟩,
    (normalizar_tudo_ou_nada (some []) [rawCompleta]).2 (by decide)⟩

/-- C9: a fetch whose response has a missing or empty `content` array halts
with the informational empty-result notice (`avisoVazio`, the `st.warning` /
`st.stop` path, not the KeyError path), and the base table of the previous
fetch — whatever it was — is neither created nor overwritten. -/
theorem buscar_conteudo_vazio_preserva (prev : Option (List Row))
    (conteudo : Option (List RawProposta)) (h : conteudo = none ∨ conteudo = some []) :
    buscar prev conteudo = (prev, ResultadoBusca.avisoVazio) := by
  rcases h with rfl | rfl <;> rfl

/-- A one-row base table left over from an earlier fetch. -/
def tabelaAnterior : List Row :=
  [{ propostaID := some "0", data := some "01-01-2024", pacienteID := some "p0",
     status := some "Pendente", valorTotal := some 100, profissional := some "C",
     unidade := some "Z" }]

/-- `buscar_conteudo_vazio_preserva` at a concrete empty fetch over a
non-trivial previous table. -/
theorem buscar_conteudo_vazio_preserva_inst :
    buscar (some tabelaAnterior) (some []) =
      (some tabelaAnterior, ResultadoBusca.avisoVazio) :=
  buscar_conteudo_vazio_preserva (some tabelaAnterior) (some []) (Or.inr rfl)

/-! C4 and C5: the two currency renderings. -/

/-- Pointwise composition of the three single-character replacements of
lines 177-179 (proof artifact): a comma becomes a dot, a dot becomes a
comma, a literal X becomes a dot, anything else is untouched. -/
def trocaComposta (c : Char) : Char :=
  if c = ',' then '.' else if c = '.' then ',' else if c = 'X' then '.' else c

theorem troca_map (l : List Char) :
    trocaXPonto (trocaPontoVirgula (trocaVirgulaX l)) = l.map trocaComposta := by
  simp only [trocaVirgulaX, trocaPontoVirgula, trocaXPonto, List.map_map]
  apply List.map_congr_left
  intro c _
  simp only [Function.comp_apply]
  by_cases h1 : c = ','
  · subst h1; rfl
  · by_cases h2 : c = '.'
    · subst h2; rfl
    · by_cases h3 : c = 'X'
      · subst h3; rfl
      · simp [trocaComposta, h1, h2, h3]

/-- The raw Python rendering and the Brazilian rendering of the same cents
amount are never the same string: the third character from the end is the
decimal separator, a dot in one and a comma in the other. -/
theorem pyFormat2_ne_formatoBR (c : Nat) : pyFormat2 c ≠ formatoBR c := by
  intro h
  rw [formatoBR, troca_map, pyFormat2, List.map_append, List.map_cons] at h
  rw [show trocaComposta '.' = ',' from rfl] at h
  have hrev := congrArg List.reverse h
  simp only [List.reverse_append, List.reverse_cons, List.append_assoc] at hrev
  have hlen : (pad2 (c % 100)).reverse.length =
      ((pad2 (c % 100)).map trocaComposta).reverse.length := by
    simp [pad2]
  obtain ⟨-, h2⟩ := List.append_inj hrev hlen
  rw [List.singleton_append, List.singleton_append] at h2
  injection h2 with h3 h4
  exact absurd h3 (by decide)

/-- C5: the on-screen formatting of lines 175-180 renders the total
1234567.8 (123456780 cents) as `"1.234.567,80"` and the total 0 as
`"0,00"` — two decimal digits, dot thousands separators, comma decimal
separator.  In this embedding `valor_formatado` is a pure function of the
cents amount, so the numeric total itself is untouched by construction. -/
theorem valor_formatado_exemplos :
    valor_formatado 123456780 = "1.234.567,80" ∧ valor_formatado 0 = "0,00" := by
  constructor
  · decide
  · decide

/-- A one-row filtered table whose value column sums to 12345.60
(1234560 cents). -/
def dfExemploC4 : List Row :=
  [{ propostaID := some "10", data := some "06-01-2024", pacienteID := some "p9",
     status := some "Executada", valorTotal := some 1234560,
     profissional := some "A", unidade := some "X" }]

/-- The claim fails on the code: at the concrete one-row table summing to
12345.60, the PDF's total-value line is not the locale-formatted form used
on-screen (`gerar_pdf` renders `f"{...:,.2f}"` with no replacements, giving
`"12,345.60"`, while the screen shows `"12.345,60"`). -/
theorem pdf_total_nao_locale_contraexemplo :
    linhaValorTotalPDF dfExemploC4 ≠
      "Valor total: R$ " ++ valor_formatado (somaValorCents dfExemploC4) := by
  decide

/-- C4 (amended): for every filtered table, the total-value line of the PDF
presents the sum of the value column in Python's default `,.2f` form — comma
thousands separators and dot decimal separator, e.g. 12345.6 rendered as
`"12,345.60"` — which is never the locale-formatted form used for the
on-screen total. -/
theorem pdf_total_formato_python :
    (∀ df : List Row,
        linhaValorTotalPDF df ≠
          "Valor total: R$ " ++ valor_formatado (somaValorCents df)) ∧
      linhaValorTotalPDF dfExemploC4 = "Valor total: R$ 12,345.60" := by
  constructor
  · intro df h
    have hd := congrArg String.data h
    rw [linhaValorTotalPDF, String.data_append, String.data_append] at hd
    have h2 := List.append_cancel_left hd
    exact pyFormat2_ne_formatoBR (somaValorCents df) h2
  · decide
